import Mathlib

set_option maxRecDepth 8000

/-!
Verification development for the farmScraper acquisition pipeline.

The Python sources are shallowly embedded as executable Lean definitions:
  - `src/src/scrapers/extractor.py`  (ProgramExtractor)
  - `src/src/scrapers/discovery.py`  (FSADiscoveryCrawler)
  - `src/src/scrapers/pdf_processor.py` (PDFProcessor)

Modelling conventions:
  - Python floats are modelled as exact rationals (all amounts in scope are
    short decimal literals, whose ordering agrees with the rational order).
  - Python regular expressions are modelled by a small priority-ordered
    backtracking matcher (`Matcher`) that mirrors `re` semantics (leftmost
    match, greedy/lazy quantifiers, ordered alternation, IGNORECASE where
    the source passes it); `re.findall` is modelled by a left-to-right
    non-overlapping scan.
  - BeautifulSoup parsing is abstracted by a `Soup` record holding the
    pieces of the parsed document the extractor reads (first h1 text,
    title text, meta description, paragraph texts, parent texts of the
    elements matching "eligib", and the whole-page text).
  - `dateutil.parser.parse` is abstracted as an explicit function
    parameter `String → Except Unit Nat` (dates as ordinals); a thrown
    `ValueError`/`TypeError` is `Except.error`.
-/

namespace FarmScraper

/-- Substring test: true when `needle` occurs contiguously inside `hay`
(models the Python expression `needle in hay` on strings). -/
def listContainsSub (needle : List Char) : List Char → Bool
  | [] => needle.isEmpty
  | c :: t => needle.isPrefixOf (c :: t) || listContainsSub needle t

/-- String-level wrapper for `listContainsSub`. -/
def strContains (hay needle : String) : Bool :=
  listContainsSub needle.data hay.data

/-- ASCII lower-casing, models Python `str.lower` on the ASCII inputs in scope. -/
def lowerStr (s : String) : String := String.mk (s.data.map Char.toLower)

/-- Length of the maximal prefix of `s` whose characters satisfy `p`. -/
def charRun (p : Char → Bool) : List Char → Nat
  | [] => 0
  | c :: t => if p c then charRun p t + 1 else 0

/-- A regex fragment: maps an input suffix to the list of possible remaining
suffixes after matching a prefix, in backtracking priority order (the head is
the alternative Python `re` commits to first). -/
abbrev Matcher := List Char → List (List Char)

/-- Empty regex fragment. -/
def mEps : Matcher := fun s => [s]

/-- Single character matching a class predicate. -/
def mChar (p : Char → Bool) : Matcher := fun s =>
  match s with
  | c :: rest => if p c then [rest] else []
  | [] => []

/-- Sequencing of two fragments, preserving priority order. -/
def mSeq (a b : Matcher) : Matcher := fun s => ((a s).map b).flatten

/-- Sequencing of a list of fragments. -/
def mSeqs (ms : List Matcher) : Matcher := ms.foldr mSeq mEps

/-- Ordered alternation (first alternative has priority), models `(?:a|b|...)`. -/
def mAlts (ms : List Matcher) : Matcher := fun s => (ms.map (fun m => m s)).flatten

/-- Greedy option, models `x?`. -/
def mOpt (m : Matcher) : Matcher := fun s => m s ++ [s]

/-- Greedy star over a character class, models `[c]*` (longest first). -/
def mMany (p : Char → Bool) : Matcher := fun s =>
  let k := charRun p s
  (List.range (k + 1)).map (fun i => s.drop (k - i))

/-- Greedy plus over a character class, models `[c]+`. -/
def mMany1 (p : Char → Bool) : Matcher := mSeq (mChar p) (mMany p)

/-- Lazy star over a character class, models `[c]*?` (shortest first). -/
def mManyLazy (p : Char → Bool) : Matcher := fun s =>
  let k := charRun p s
  (List.range (k + 1)).map (fun i => s.drop i)

/-- Greedy bounded repetition over a character class, models `[c]{lo,hi}`. -/
def mRepRange (p : Char → Bool) (lo hi : Nat) : Matcher := fun s =>
  let k := min (charRun p s) hi
  if k < lo then [] else (List.range (k + 1 - lo)).map (fun i => s.drop (k - i))

/-- Case-insensitive literal string, models a literal under `re.IGNORECASE`. -/
def mStrCI (lit : String) : Matcher := fun s =>
  let n := lit.length
  if (s.take n).map Char.toLower = lit.data.map Char.toLower then [s.drop n] else []

/-- Exact literal single character. -/
def mLit (c : Char) : Matcher := mChar (fun x => x = c)

/-- Case-insensitive single character. -/
def mCharCI (c : Char) : Matcher := mChar (fun x => x.toLower = c)

/-- Python `\s` (whitespace) character class. -/
def isPySpace (c : Char) : Bool :=
  c = ' ' || c = '\t' || c = '\n' || c = '\r' || c = Char.ofNat 11 || c = Char.ofNat 12

/-- Python `[\d,]` character class. -/
def isDigitComma (c : Char) : Bool := c.isDigit || c = ','

/-- First match of `m` at the start of `s`: number of characters consumed by
the highest-priority alternative, as Python's backtracking engine commits. -/
def matchHere (m : Matcher) (s : List Char) : Option Nat :=
  match m s with
  | [] => none
  | r :: _ => some (s.length - r.length)

/-- Left-to-right non-overlapping scan collecting matched substrings; models
`re.findall` for a pattern without capturing groups. The fuel argument is an
upper bound on the number of scan steps (the string length suffices, since
every step consumes at least one character). -/
def findallAux (m : Matcher) : Nat → List Char → List String
  | 0, _ => []
  | _ + 1, [] => []
  | fuel + 1, c :: rest =>
    match matchHere m (c :: rest) with
    | some n =>
      if n = 0 then String.mk [] :: findallAux m fuel rest
      else String.mk ((c :: rest).take n) :: findallAux m fuel ((c :: rest).drop n)
    | none => findallAux m fuel rest

/-- `re.findall` over a `String` for a group-free pattern. -/
def re_findall (m : Matcher) (s : String) : List String :=
  findallAux m (s.length + 1) s.data

/-- First match at the start of `s` for a pattern of shape `pre(cap)` whose
single capturing group is its final part: returns (capture start offset,
total match length). -/
def matchCapHere (pre cap : Matcher) (s : List Char) : Option (Nat × Nat) :=
  match ((pre s).map (fun r1 =>
      (cap r1).map (fun r2 => (s.length - r1.length, s.length - r2.length)))).flatten with
  | [] => none
  | p :: _ => some p

/-- Scan collecting the captured group of every match; models `re.findall`
for a pattern whose single group is its final part. -/
def findallCapAux (pre cap : Matcher) : Nat → List Char → List String
  | 0, _ => []
  | _ + 1, [] => []
  | fuel + 1, c :: rest =>
    match matchCapHere pre cap (c :: rest) with
    | some (cs, ce) =>
      if ce = 0 then String.mk [] :: findallCapAux pre cap fuel rest
      else
        String.mk (((c :: rest).drop cs).take (ce - cs)) ::
          findallCapAux pre cap fuel ((c :: rest).drop ce)
    | none => findallCapAux pre cap fuel rest

/-- `re.findall` over a `String` for a final-group pattern. -/
def re_findall_cap (pre cap : Matcher) (s : String) : List String :=
  findallCapAux pre cap (s.length + 1) s.data

/-- Regex fragment `\$[\d,]+\.?\d*` (a dollar amount). -/
def mDollar : Matcher :=
  mSeqs [mLit '$', mMany1 isDigitComma, mOpt (mLit '.'), mMany Char.isDigit]

/-- Regex fragment `\s*`. -/
def mSpaces : Matcher := mMany isPySpace

/-- Regex fragment `(?:per|/)`. -/
def mPerSlash : Matcher := mAlts [mStrCI "per", mStrCI "/"]

/-- Payment pattern `\$[\d,]+\.?\d*\s*(?:per|/)\s*UNIT` for a unit word
(the first three entries of `PAYMENT_PATTERNS` in the source). -/
def payment_pattern_per (unit : String) : Matcher :=
  mSeqs [mDollar, mSpaces, mPerSlash, mSpaces, mStrCI unit]

/-- Payment pattern `(?:up to|maximum of?)\s*\$[\d,]+\.?\d*`. -/
def payment_pattern_upto : Matcher :=
  mSeqs [mAlts [mStrCI "up to", mSeq (mStrCI "maximum o") (mOpt (mCharCI 'f'))],
    mSpaces, mDollar]

/-- Payment pattern `[\d,]+\.?\d*%\s*of\s*(?:losses|costs|expenses|value)`. -/
def payment_pattern_percent : Matcher :=
  mSeqs [mMany1 isDigitComma, mOpt (mLit '.'), mMany Char.isDigit, mLit '%',
    mSpaces, mStrCI "of", mSpaces,
    mAlts [mStrCI "losses", mStrCI "costs", mStrCI "expenses", mStrCI "value"]]

/-- Payment pattern `payment rate[s]?\s*(?:is|are|of)?\s*\$[\d,]+\.?\d*`. -/
def payment_pattern_rate : Matcher :=
  mSeqs [mStrCI "payment rate", mOpt (mCharCI 's'), mSpaces,
    mOpt (mAlts [mStrCI "is", mStrCI "are", mStrCI "of"]), mSpaces, mDollar]

/-- Payment pattern `\$[\d,]+\.?\d*\s*to\s*\$[\d,]+\.?\d*`. -/
def payment_pattern_range : Matcher :=
  mSeqs [mDollar, mSpaces, mStrCI "to", mSpaces, mDollar]

/-- Payment pattern `between\s*\$[\d,]+\.?\d*\s*and\s*\$[\d,]+\.?\d*`. -/
def payment_pattern_between : Matcher :=
  mSeqs [mStrCI "between", mSpaces, mDollar, mSpaces, mStrCI "and", mSpaces, mDollar]

/-- `ProgramExtractor.PAYMENT_PATTERNS`, in source order. -/
def PAYMENT_PATTERNS : List Matcher :=
  [payment_pattern_per "acre", payment_pattern_per "head", payment_pattern_per "bushel",
   payment_pattern_upto, payment_pattern_percent, payment_pattern_rate,
   payment_pattern_range, payment_pattern_between]

/-- Decimal digits to a natural number. -/
def digitsToNat (s : List Char) : Nat :=
  s.foldl (fun n c => 10 * n + (c.toNat - ('0').toNat)) 0

/-- Python `float(...)` on a string drawn from the dollar pattern with `$`
and `,` removed: digits, then optionally a dot and more digits; `none`
models a raised `ValueError`. -/
def pyFloatOfDigits (s : List Char) : Option ℚ :=
  let intPart := s.takeWhile Char.isDigit
  let rest := s.drop intPart.length
  match rest with
  | [] => if intPart.isEmpty then none else some (mkRat (digitsToNat intPart) 1)
  | '.' :: frac =>
    if frac.all Char.isDigit ∧ (intPart ≠ [] ∨ frac ≠ []) then
      some (mkRat (digitsToNat intPart * 10 ^ frac.length + digitsToNat frac) (10 ^ frac.length))
    else none
  | _ => none

/-- `ProgramExtractor._extract_amounts`: all dollar figures found in the
given payment strings, unparseable ones skipped. -/
def extract_amounts (payment_strings : List String) : List ℚ :=
  (payment_strings.map (fun s =>
    (re_findall mDollar s).filterMap (fun m =>
      pyFloatOfDigits (m.data.filter (fun c => ¬ (c = '$' ∨ c = ',')))))).flatten

/-- Unit keywords searched by `_extract_payment_unit`, in source order. -/
def PAYMENT_UNITS : List String := ["acre", "head", "bushel", "cwt", "ton", "animal"]

/-- `ProgramExtractor._extract_payment_unit`. -/
def extract_payment_unit (payment_strings : List String) : Option String :=
  let combined := lowerStr (String.intercalate " " payment_strings)
  match PAYMENT_UNITS.find? (fun u => strContains combined u) with
  | some u => some ("per " ++ u)
  | none => if strContains combined "%" then some "percentage" else some "flat_rate"

/-- Binary minimum on rationals, written out so that it evaluates by
kernel reduction. -/
def qmin (a b : ℚ) : ℚ := if a ≤ b then a else b

/-- Binary maximum on rationals, written out so that it evaluates by
kernel reduction. -/
def qmax (a b : ℚ) : ℚ := if b ≤ a then a else b

/-- Minimum of a list of rationals (Python `min` on a non-empty list). -/
def listMin : List ℚ → Option ℚ
  | [] => none
  | x :: xs => some (xs.foldl qmin x)

/-- Maximum of a list of rationals (Python `max` on a non-empty list). -/
def listMax : List ℚ → Option ℚ
  | [] => none
  | x :: xs => some (xs.foldl qmax x)

/-- Result shape of `extract_payment_info`. -/
structure PaymentInfo where
  payment_info_raw : Option String
  payment_min : Option ℚ
  payment_max : Option ℚ
  payment_unit : Option String
  payment_range_text : Option String
deriving DecidableEq, Repr

/-- `ProgramExtractor.extract_payment_info` (the `soup` parameter is unused
in the source; only the page text is consulted). -/
def extract_payment_info (text : String) : PaymentInfo :=
  let all_matches := (PAYMENT_PATTERNS.map (fun pat => re_findall pat text)).flatten
  if all_matches.isEmpty then
    { payment_info_raw := none, payment_min := none, payment_max := none,
      payment_unit := none, payment_range_text := none }
  else
    let amounts := extract_amounts all_matches
    { payment_info_raw := some (String.intercalate " | " all_matches)
      payment_min := listMin amounts
      payment_max := listMax amounts
      payment_unit := extract_payment_unit all_matches
      payment_range_text := all_matches.head? }

/-- Word characters, Python `\w` (ASCII approximation). -/
def isWordChar (c : Char) : Bool := c.isAlphanum || c = '_'

/-- Scan for `\(([A-Z]{2,6})\)`: a parenthesized run of 2 to 6 upper-case
letters; returns the captured runs in document order (the greedy bounded
repetition plus the closing-paren requirement force the run to be maximal,
so the regex is equivalent to this direct scan). -/
def parenCodesAux : Nat → List Char → List String
  | 0, _ => []
  | _ + 1, [] => []
  | fuel + 1, c :: rest =>
    if c = '(' then
      let run := rest.takeWhile Char.isUpper
      if 2 ≤ run.length ∧ run.length ≤ 6 ∧ (rest.drop run.length).head? = some ')' then
        String.mk run :: parenCodesAux fuel (rest.drop (run.length + 1))
      else parenCodesAux fuel rest
    else parenCodesAux fuel rest

/-- `re.findall(r'\(([A-Z]{2,6})\)', text)`. -/
def parenCodes (s : String) : List String := parenCodesAux (s.length + 1) s.data

/-- Scan for `\b([A-Z]{2,6})\b`: the word boundaries force each match to be
a maximal word-character run, so the matches are exactly the maximal word
runs that consist of 2 to 6 upper-case letters. -/
def upperTokensAux : Nat → List Char → List String
  | 0, _ => []
  | _ + 1, [] => []
  | fuel + 1, c :: rest =>
    if isWordChar c then
      let run := c :: rest.takeWhile isWordChar
      (if run.all Char.isUpper ∧ 2 ≤ run.length ∧ run.length ≤ 6 then [String.mk run] else [])
        ++ upperTokensAux fuel (rest.drop (run.length - 1))
    else upperTokensAux fuel rest

/-- `re.findall(r'\b([A-Z]{2,6})\b', text)`. -/
def upperTokens (s : String) : List String := upperTokensAux (s.length + 1) s.data

/-- Case-insensitive split, models `re.split(r'(?i)program', text)` when the
pattern is a plain literal. -/
def splitCIAux (pat : List Char) : Nat → List Char → List Char → List String
  | 0, acc, s => [String.mk (acc.reverse ++ s)]
  | _ + 1, acc, [] => [String.mk acc.reverse]
  | fuel + 1, acc, c :: rest =>
    if (pat.map Char.toLower).isPrefixOf (((c :: rest).take pat.length).map Char.toLower)
        ∧ ¬ pat.isEmpty then
      String.mk acc.reverse :: splitCIAux pat fuel [] ((c :: rest).drop pat.length)
    else splitCIAux pat fuel (c :: acc) rest

/-- String wrapper for `splitCIAux`. -/
def re_split_ci (pat s : String) : List String :=
  splitCIAux pat.data (s.length + 1) [] s.data

/-- Denylist applied in the second branch of `extract_program_code`. -/
def CODE_DENYLIST : List String := ["FSA", "USDA", "USA", "PDF"]

/-- Loop body of the second branch of `extract_program_code`: for each
section, standalone upper-case tokens in the first 200 characters are
filtered through the denylist; the first surviving token wins, and a
section whose tokens are all denylisted falls through to the next one. -/
def codeSearchSections : List String → Option String
  | [] => none
  | sec :: rest =>
    let ms := upperTokens (String.mk (sec.data.take 200))
    match (ms.filter (fun m => ¬ CODE_DENYLIST.contains m)).head? with
    | some m => some m
    | none => codeSearchSections rest

/-- `ProgramExtractor.extract_program_code` (only the page text is consulted;
the `soup` parameter is unused in the source). -/
def extract_program_code (text : String) : Option String :=
  let parenMatches := parenCodes text
  if ¬ parenMatches.isEmpty then parenMatches.head?
  else codeSearchSections ((re_split_ci "program" text).take 2)

/-- Drop the trailing whitespace run of a character list. -/
def stripTrailingSpacesList (l : List Char) : List Char :=
  (l.reverse.dropWhile isPySpace).reverse

/-- Whether `.*$` can complete from the start of `s` (no `re.DOTALL`,
no `re.MULTILINE`): true when `s` has no newline, or its only newline
is its final character. -/
def dotStarDollarOk (s : List Char) : Bool :=
  match s.findIdx? (fun c => c = '\n') with
  | none => true
  | some i => i + 1 = s.length

/-- Scan for the leftmost match of `\s*\|\s*.*$` and return the text before
it, Python `re.sub(r'\s*\|\s*.*$', '', t)`. -/
def titleBarCut (pfx : List Char) : Nat → List Char → Option (List Char)
  | 0, _ => none
  | _ + 1, [] => none
  | fuel + 1, c :: rest =>
    if c = '|' ∧ dotStarDollarOk (rest.dropWhile isPySpace) then
      some (stripTrailingSpacesList pfx.reverse)
    else titleBarCut (c :: pfx) fuel rest

/-- Title clean-up `re.sub(r'\s*\|\s*.*$', '', title_text)`. -/
def strip_title_suffix (t : String) : String :=
  match titleBarCut [] (t.length + 1) t.data with
  | some pre => String.mk pre
  | none => t

/-- Python `str.replace` (all non-overlapping occurrences, left to right). -/
def replaceAllAux (pat rep : List Char) : Nat → List Char → List Char
  | 0, s => s
  | _ + 1, [] => []
  | fuel + 1, c :: rest =>
    if pat.isPrefixOf (c :: rest) ∧ ¬ pat.isEmpty then
      rep ++ replaceAllAux pat rep fuel ((c :: rest).drop pat.length)
    else c :: replaceAllAux pat rep fuel rest

/-- String wrapper for `replaceAllAux`. -/
def strReplace (s pat rep : String) : String :=
  String.mk (replaceAllAux pat.data rep.data (s.length + 1) s.data)

/-- Python `str.title`: the first cased character of every word is
upper-cased and the rest lower-cased (word = maximal alphabetic run). -/
def pyTitleCaseAux : Bool → List Char → List Char
  | _, [] => []
  | prevAlpha, c :: rest =>
    (if c.isAlpha then (if prevAlpha then c.toLower else c.toUpper) else c)
      :: pyTitleCaseAux c.isAlpha rest

/-- String wrapper for `pyTitleCaseAux`. -/
def pyTitleCase (s : String) : String := String.mk (pyTitleCaseAux false s.data)

/-- URL fallback of `extract_program_name`:
`url.split('/')[-1].replace('-', ' ').replace('.html', '').title()`. -/
def url_fallback_name (url : String) : String :=
  let path := ((url.splitOn "/").getLast?).getD ""
  pyTitleCase (strReplace (strReplace path "-" " ") ".html" "")

/-- Parsed-document pieces read by the extractor; abstracts the
BeautifulSoup value built from the page markup. A `some` in `h1` / `title`
means the element exists (its stripped text may still be empty); a `some`
in `metaDescription` means the meta tag exists and carries a content
attribute. -/
structure Soup where
  h1 : Option String
  title : Option String
  metaDescription : Option String
  paragraphs : List String
  eligParentTexts : List String
  text : String
deriving DecidableEq, Repr

/-- `ProgramExtractor.extract_program_name`. -/
def extract_program_name (soup : Soup) (url : String) : String :=
  match soup.h1 with
  | some t => t
  | none =>
    match soup.title with
    | some t => strip_title_suffix t
    | none => url_fallback_name url

/-- Second branch of `extract_description`: first of the first five
paragraphs whose stripped text exceeds 100 characters. -/
def firstLongParagraph (ps : List String) : Option String :=
  (ps.take 5).find? (fun t => 100 < t.length)

/-- `ProgramExtractor.extract_description`. -/
def extract_description (soup : Soup) : Option String :=
  match soup.metaDescription with
  | some c => if ¬ c.isEmpty then some c else firstLongParagraph soup.paragraphs
  | none => firstLongParagraph soup.paragraphs

/-- `ProgramExtractor.extract_eligibility`: parent texts of the first five
elements matching `eligib`, kept when strictly between 50 and 1000
characters, joined with a separator. -/
def extract_eligibility (soup : Soup) : Option String :=
  let texts := (soup.eligParentTexts.take 5).filter (fun t => 50 < t.length ∧ t.length < 1000)
  if texts.isEmpty then none else some (String.intercalate " | " texts)

/-- Result shape of `parse_eligibility`. -/
structure EligParsed where
  requires_farm_ownership : Bool
  requires_acreage : Bool
  income_limits : Bool
  conservation_requirements : Bool
deriving DecidableEq, Repr

/-- Case-insensitive `re.search` for an alternation of literal words. -/
def searchCI (raw : String) (alts : List String) : Bool :=
  alts.any (fun a => strContains (lowerStr raw) a)

/-- `ProgramExtractor.parse_eligibility`. -/
def parse_eligibility (soup : Soup) : Option EligParsed :=
  match extract_eligibility soup with
  | none => none
  | some raw =>
    some { requires_farm_ownership := searchCI raw ["own", "ownership", "operator"]
           requires_acreage := searchCI raw ["acre", "land", "farm size"]
           income_limits := searchCI raw ["income", "agi", "adjusted gross"]
           conservation_requirements := searchCI raw ["conservation", "environmental"] }

/-- Regex fragment `[:\s]+`. -/
def mColonSpaces1 : Matcher := mMany1 (fun c => c = ':' || isPySpace c)

/-- Context part of deadline pattern 1:
`(?:deadline|due date|apply by|submit by)[:\s]+`. -/
def deadline_pre_1 : Matcher :=
  mSeq (mAlts [mStrCI "deadline", mStrCI "due date", mStrCI "apply by", mStrCI "submit by"])
    mColonSpaces1

/-- Captured part `([A-Z][a-z]+ \d{1,2},?\s*\d{4})`; under `re.IGNORECASE`
the letter classes match either case. -/
def deadline_cap_date : Matcher :=
  mSeqs [mChar Char.isAlpha, mMany1 Char.isAlpha, mLit ' ', mRepRange Char.isDigit 1 2,
    mOpt (mLit ','), mSpaces, mRepRange Char.isDigit 4 4]

/-- Context part of deadline pattern 2: `(?:applications? (?:open|close)[s]?)[:\s]+`. -/
def deadline_pre_2 : Matcher :=
  mSeqs [mStrCI "application", mOpt (mCharCI 's'), mLit ' ',
    mAlts [mStrCI "open", mStrCI "close"], mOpt (mCharCI 's'), mColonSpaces1]

/-- Context part of deadline pattern 3: `(?:enrollment period)[:\s]+`. -/
def deadline_pre_3 : Matcher := mSeq (mStrCI "enrollment period") mColonSpaces1

/-- Captured part `([A-Z][a-z]+ \d{1,2}.*?through.*?\d{4})`. -/
def deadline_cap_through : Matcher :=
  mSeqs [mChar Char.isAlpha, mMany1 Char.isAlpha, mLit ' ', mRepRange Char.isDigit 1 2,
    mManyLazy (fun c => c ≠ '\n'), mStrCI "through", mManyLazy (fun c => c ≠ '\n'),
    mRepRange Char.isDigit 4 4]

/-- Context part of deadline pattern 4: `(?:sign.?up|signup) (?:begins|starts|ends)[:\s]+`. -/
def deadline_pre_4 : Matcher :=
  mSeqs [mAlts [mSeqs [mStrCI "sign", mOpt (mChar (fun c => c ≠ '\n')), mStrCI "up"],
      mStrCI "signup"],
    mLit ' ', mAlts [mStrCI "begins", mStrCI "starts", mStrCI "ends"], mColonSpaces1]

/-- `ProgramExtractor.DEADLINE_PATTERNS`, in source order, each split into
its context part and its single (final) capturing group. -/
def DEADLINE_PATTERNS : List (Matcher × Matcher) :=
  [(deadline_pre_1, deadline_cap_date), (deadline_pre_2, deadline_cap_date),
   (deadline_pre_3, deadline_cap_through), (deadline_pre_4, deadline_cap_date)]

/-- All captured deadline strings of all deadline patterns, in source order. -/
def deadlineMatches (text : String) : List String :=
  (DEADLINE_PATTERNS.map (fun pc => re_findall_cap pc.1 pc.2 text)).flatten

/-- The `try/except` loop of `extract_deadlines`: parse each deadline
string, skipping the ones on which the parser raises. -/
def tryParseAll (parser : String → Except Unit Nat) : List String → List Nat
  | [] => []
  | s :: rest =>
    match parser s with
    | Except.ok d => d :: tryParseAll parser rest
    | Except.error _ => tryParseAll parser rest

/-- Insertion into a sorted list. -/
def insertSortedNat (x : Nat) : List Nat → List Nat
  | [] => [x]
  | y :: ys => if x ≤ y then x :: y :: ys else y :: insertSortedNat x ys

/-- Ascending sort, models Python `list.sort` on dates. -/
def sortNat : List Nat → List Nat
  | [] => []
  | x :: xs => insertSortedNat x (sortNat xs)

/-- Result shape of `extract_deadlines`. -/
structure DeadlineInfo where
  application_start : Option Nat
  application_end : Option Nat
  deadline_text : Option String
deriving DecidableEq, Repr

/-- `ProgramExtractor.extract_deadlines` (the `soup` parameter is unused in
the source; only the page text is consulted). -/
def extract_deadlines (parser : String → Except Unit Nat) (text : String) : DeadlineInfo :=
  let deadlines := deadlineMatches text
  if deadlines.isEmpty then
    { application_start := none, application_end := none, deadline_text := none }
  else
    let dtext := some (String.intercalate " | " deadlines)
    let parsed := tryParseAll parser deadlines
    if parsed.isEmpty then
      { application_start := none, application_end := none, deadline_text := dtext }
    else
      let sorted := sortNat parsed
      { application_start := if 1 < parsed.length then sorted.head? else none
        application_end := sorted.getLast?
        deadline_text := dtext }

/-- The record built by `extract_program_data` (the fixed dictionary shape). -/
structure ProgramData where
  source_url : String
  program_name : Option String
  program_code : Option String
  description : Option String
  eligibility_raw : Option String
  eligibility_parsed : Option EligParsed
  payment_info_raw : Option String
  payment_formula : Option String
  payment_min : Option ℚ
  payment_max : Option ℚ
  payment_unit : Option String
  payment_range_text : Option String
  application_start : Option Nat
  application_end : Option Nat
  deadline_text : Option String
  confidence_score : ℚ
  extraction_warnings : List String
deriving DecidableEq, Repr

/-- Python truthiness of an optional string (`None` and `''` are falsy). -/
def strTruthy : Option String → Bool
  | none => false
  | some s => ¬ s.isEmpty

/-- Python truthiness of an optional number (`None` and `0.0` are falsy). -/
def qTruthy : Option ℚ → Bool
  | none => false
  | some q => q ≠ 0

/-- The description condition of `calculate_confidence`:
`program_data.get('description') and len(program_data['description']) > 50`. -/
def descLongOk : Option String → Bool
  | none => false
  | some d => ¬ d.isEmpty ∧ 50 < d.length

/-- `ProgramExtractor.calculate_confidence`. -/
def calculate_confidence (pd : ProgramData) : ℚ :=
  let score : ℚ := 0
  let score := if strTruthy pd.program_name then score + 2/10 else score
  let score := if descLongOk pd.description then score + 2/10 else score
  let score := if qTruthy pd.payment_min || strTruthy pd.payment_info_raw then score + 3/10 else score
  let score := if strTruthy pd.eligibility_raw then score + 2/10 else score
  let score := if pd.application_end.isSome || strTruthy pd.deadline_text then score + 1/10 else score
  qmin score 1

/-- Mutable state of a `ProgramExtractor` instance (only a counter, written
by the caller loop and never read during extraction). -/
structure ExtractorState where
  extracted_count : Nat
deriving DecidableEq, Repr

/-- `ProgramExtractor.extract_program_data`: assembles the record from the
field extractors and finishes with the confidence score. -/
def extract_program_data (_st : ExtractorState) (parser : String → Except Unit Nat)
    (soup : Soup) (url : String) : ProgramData :=
  let text := soup.text
  let pay := extract_payment_info text
  let dl := extract_deadlines parser text
  let pd : ProgramData :=
    { source_url := url
      program_name := some (extract_program_name soup url)
      program_code := extract_program_code text
      description := extract_description soup
      eligibility_raw := extract_eligibility soup
      eligibility_parsed := parse_eligibility soup
      payment_info_raw := pay.payment_info_raw
      payment_formula := none
      payment_min := pay.payment_min
      payment_max := pay.payment_max
      payment_unit := pay.payment_unit
      payment_range_text := pay.payment_range_text
      application_start := dl.application_start
      application_end := dl.application_end
      deadline_text := dl.deadline_text
      confidence_score := 0
      extraction_warnings := [] }
  { pd with confidence_score := calculate_confidence pd }

/-- One page of a PDF as pdfplumber reports it: `extract_text()` result
(`none` models Python `None`) and `extract_tables()` result, each table a
list of rows of optional cells. -/
structure PdfPage where
  text : Option String
  tables : List (List (List (Option String)))
deriving DecidableEq, Repr

/-- One table entry of the result dictionary. -/
structure PdfTable where
  page : Nat
  table_num : Nat
  data : List (List (Option String))
  headers : List (Option String)
  rows : List (List (Option String))
deriving DecidableEq, Repr

/-- Result shape of `PDFProcessor.process_pdf`. -/
structure PdfResult where
  text : String
  tables : List PdfTable
  extraction_method : Option String
  success : Bool
  page_count : Nat
deriving DecidableEq, Repr

/-- The initial result dictionary of `process_pdf`. -/
def pdfResultInit : PdfResult :=
  { text := "", tables := [], extraction_method := none, success := false, page_count := 0 }

/-- `PDFProcessor._extract_with_pdfplumber`: page texts joined with a
page-boundary marker, tables collected per page with 1-based numbering,
`success` set exactly when the joined text is non-empty. -/
def extract_with_pdfplumber (pages : List PdfPage) : PdfResult :=
  let text_pages := pages.enum.filterMap (fun ip =>
    match ip.2.text with
    | some t => if ¬ t.isEmpty then
        some ("\n--- Page " ++ toString (ip.1 + 1) ++ " ---\n" ++ t) else none
    | none => none)
  let tables := (pages.enum.map (fun ip =>
    ip.2.tables.enum.map (fun jt =>
      { page := ip.1 + 1
        table_num := jt.1 + 1
        data := jt.2
        headers := jt.2.head?.getD []
        rows := jt.2.drop 1 : PdfTable }))).flatten
  let text := String.intercalate "\n" text_pages
  { text := text
    tables := tables
    extraction_method := some "pdfplumber"
    success := decide (text ≠ "")
    page_count := pages.length }

/-- `PDFProcessor.process_pdf`. The primary path is abstracted by
`pp : Except Unit (List PdfPage)` (`error` models pdfplumber being
unavailable or raising), the fallback by `cam : Option (List PdfTable)`
(`none` models camelot being unavailable or raising at the call site;
`_extract_tables_with_camelot` itself swallows errors and returns a list). -/
def process_pdf (pp : Except Unit (List PdfPage)) (cam : Option (List PdfTable)) : PdfResult :=
  let afterPrimary :=
    match pp with
    | Except.ok pages => extract_with_pdfplumber pages
    | Except.error _ => pdfResultInit
  if afterPrimary.success then afterPrimary
  else
    match cam with
    | some ts => { afterPrimary with tables := ts, extraction_method := some "camelot" }
    | none => afterPrimary

/-- Link keywords of `FSADiscoveryCrawler._classify_link`, in source order. -/
def CRAWL_KEYWORDS : List String :=
  ["program", "assistance", "loan", "insurance", "conservation", "disaster",
   "payment", "subsidy"]

/-- Text indicators of `FSADiscoveryCrawler._is_program_page`, in source order. -/
def PROGRAM_INDICATORS : List String :=
  ["eligibility", "payment rate", "how to apply", "deadline", "enrollment",
   "program description", "benefits", "requirements"]

/-- URL keywords of `FSADiscoveryCrawler._is_program_page`, in source order. -/
def URL_PROGRAM_KEYWORDS : List String := ["program", "assistance", "loan", "insurance"]

/-- Process-local crawler state: visited set, FIFO queue of (URL, depth),
discovered PDF and program-page sets, plus the configured maximum depth and
a log of the fetch attempts actually performed (the bodies of `crawl_page`
that reached the network call). -/
structure CrawlState where
  visited_urls : List String
  to_visit : List (String × Nat)
  pdf_urls : List String
  program_pages : List String
  max_depth : Nat
  fetched : List (String × Nat)
deriving DecidableEq, Repr

/-- `FSADiscoveryCrawler._classify_link`. -/
def classify_link (st : CrawlState) (link : String) (current_depth : Nat) : CrawlState :=
  let link_lower := lowerStr link
  if strContains link_lower ".pdf" then
    { st with pdf_urls := if link ∈ st.pdf_urls then st.pdf_urls else st.pdf_urls ++ [link] }
  else if strContains link "fsa.usda.gov" ∧ CRAWL_KEYWORDS.any (fun k => strContains link_lower k) then
    if link ∈ st.visited_urls then st
    else { st with to_visit := st.to_visit ++ [(link, current_depth + 1)] }
  else st

/-- `FSADiscoveryCrawler._is_program_page`. -/
def is_program_page (text url : String) : Bool :=
  let text_lower := lowerStr text
  (3 ≤ (PROGRAM_INDICATORS.countP (fun i => strContains text_lower i)) : Bool)
    && URL_PROGRAM_KEYWORDS.any (fun k => strContains (lowerStr url) k)

/-- Content of a successfully fetched page, as the crawler reads it back
from the browser: its outbound links and its body text. -/
structure PageData where
  links : List String
  text : String
deriving DecidableEq, Repr

/-- Effect of a successful `crawl_page` body: mark visited, log the fetch,
classify every outbound link at the current depth, and record the page when
the program-page heuristic fires. -/
def crawl_page_ok (st : CrawlState) (url : String) (depth : Nat) (pd : PageData) : CrawlState :=
  let st := { st with
    visited_urls := st.visited_urls ++ [url]
    fetched := st.fetched ++ [(url, depth)] }
  let st := pd.links.foldl (fun s l => classify_link s l depth) st
  if is_program_page pd.text url then
    { st with program_pages :=
        if url ∈ st.program_pages then st.program_pages else st.program_pages ++ [url] }
  else st

/-- One iteration of the crawl: either seed a queue (start of
`_crawl_from_seed`, only on an empty queue), drop a dequeued entry that is
already visited or too deep, or dequeue and fetch (successfully or not).
The fetch oracle maps a URL to `some` page data (HTTP 200) or `none`
(non-200 status or a raised exception). -/
inductive CrawlStep (oracle : String → Option PageData) (seeds : List String) :
    CrawlState → CrawlState → Prop
  | seed (s : CrawlState) (u : String) (hu : u ∈ seeds) (hq : s.to_visit = []) :
      CrawlStep oracle seeds s { s with to_visit := [(u, 0)] }
  | drop (s : CrawlState) (url : String) (depth : Nat) (rest : List (String × Nat))
      (hq : s.to_visit = (url, depth) :: rest)
      (h : url ∈ s.visited_urls ∨ s.max_depth < depth) :
      CrawlStep oracle seeds s { s with to_visit := rest }
  | fetch_ok (s : CrawlState) (url : String) (depth : Nat) (rest : List (String × Nat))
      (pd : PageData)
      (hq : s.to_visit = (url, depth) :: rest)
      (hvis : url ∉ s.visited_urls) (hd : depth ≤ s.max_depth)
      (ho : oracle url = some pd) :
      CrawlStep oracle seeds s (crawl_page_ok { s with to_visit := rest } url depth pd)
  | fetch_fail (s : CrawlState) (url : String) (depth : Nat) (rest : List (String × Nat))
      (hq : s.to_visit = (url, depth) :: rest)
      (hvis : url ∉ s.visited_urls) (hd : depth ≤ s.max_depth)
      (ho : oracle url = none) :
      CrawlStep oracle seeds s
        { s with to_visit := rest
                 visited_urls := s.visited_urls ++ [url]
                 fetched := s.fetched ++ [(url, depth)] }

/-- Reflexive-transitive closure of `CrawlStep`. -/
inductive CrawlReaches (oracle : String → Option PageData) (seeds : List String) :
    CrawlState → CrawlState → Prop
  | refl (s : CrawlState) : CrawlReaches oracle seeds s s
  | tail (s t u : CrawlState) : CrawlReaches oracle seeds s t → CrawlStep oracle seeds t u →
      CrawlReaches oracle seeds s u

/-- Crawler state at start with `resume=True` and a successful
`_load_visited_urls_from_db`: the visited set is exactly the store's
RawPage keys and everything else is empty. -/
def resume_init (storeKeys : List String) (maxD : Nat) : CrawlState :=
  { visited_urls := storeKeys, to_visit := [], pdf_urls := [], program_pages := [],
    max_depth := maxD, fetched := [] }

/-- The two seed URLs of `FSADiscoveryCrawler.crawl`. -/
def default_seeds : List String :=
  ["https://www.fsa.usda.gov/programs-and-services/",
   "https://www.fsa.usda.gov/state-offices/North-Dakota/"]

/-- The confidence formula as the spec words it, for the refinement claim:
a weighted sum capped at 1.0, with 0.2 for a present name, 0.2 for a
description longer than 50 characters, 0.3 for a payment figure or raw
payment text, 0.2 for eligibility text, and 0.1 for an end date or
deadline text. -/
def confidenceSpec (pd : ProgramData) : ℚ :=
  qmin ((if strTruthy pd.program_name then (2 : ℚ)/10 else 0)
    + (if descLongOk pd.description then (2 : ℚ)/10 else 0)
    + (if qTruthy pd.payment_min || strTruthy pd.payment_info_raw then (3 : ℚ)/10 else 0)
    + (if strTruthy pd.eligibility_raw then (2 : ℚ)/10 else 0)
    + (if pd.application_end.isSome || strTruthy pd.deadline_text then (1 : ℚ)/10 else 0)) 1

/-- A fully populated record: name, description longer than 50 characters,
payment match, eligibility text and a parsed deadline (the scenario of the
claim about a perfect confidence score). -/
def fullRecord : ProgramData :=
  { source_url := "https://www.fsa.usda.gov/programs-and-services/dairy-margin-coverage"
    program_name := some "Dairy Margin Coverage"
    program_code := some "DMC"
    description := some "Dairy Margin Coverage offers protection to dairy producers against low margins."
    eligibility_raw := some "Eligible producers must have a production history established."
    eligibility_parsed := none
    payment_info_raw := some "$4.00 to $9.50"
    payment_formula := none
    payment_min := some 4
    payment_max := some (19/2)
    payment_unit := some "flat_rate"
    payment_range_text := some "$4.00 to $9.50"
    application_start := none
    application_end := some 739324
    deadline_text := some "March 15, 2024"
    confidence_score := 0
    extraction_warnings := [] }

/-- The amended program-code claim, worded independently of the source:
the first parenthesized upper-case token anywhere in the text with no
denylist applied; otherwise the first standalone upper-case token of the
first 200 characters of the first two segments split on `program` that
survives the denylist; otherwise null. -/
def program_code_spec (text : String) : Option String :=
  match (parenCodes text).head? with
  | some c => some c
  | none =>
    ((re_split_ci "program" text).take 2).findSome?
      (fun sec => (upperTokens (String.mk (sec.data.take 200))).find?
        (fun m => ¬ CODE_DENYLIST.contains m))

/-- A page whose only deadline-like content is a date no parser accepts. -/
def soup0 : Soup :=
  { h1 := some "Some Program", title := none, metaDescription := none,
    paragraphs := [], eligParentTexts := [], text := "Deadline: March 15, 2024" }

/-- A date parser that rejects every input (every `parse` call raises). -/
def failParser : String → Except Unit Nat := fun _ => Except.error ()

/-- A PDF page with no extractable text and no tables. -/
def pageEmpty : PdfPage := { text := none, tables := [] }

/-- Fetch oracle for the concrete crawl trace used by the witnesses:
every URL loads successfully with no outbound links. -/
def wOracle : String → Option PageData := fun _ => some { links := [], text := "" }

/-- Seed URL of the concrete crawl trace. -/
def wSeed : String := "https://example.test/start"

/-- RawPage keys already in the store before the concrete crawl. -/
def wKeys : List String := ["https://example.test/old"]

/-- Start state of the concrete crawl trace (resume from `wKeys`, depth 2). -/
def wInit : CrawlState := resume_init wKeys 2

/-- State after seeding the queue in the concrete crawl trace. -/
def wMid : CrawlState := { wInit with to_visit := [(wSeed, 0)] }

/-- State after fetching the seed in the concrete crawl trace. -/
def wFinal : CrawlState :=
  crawl_page_ok { wMid with to_visit := [] } wSeed 0 { links := [], text := "" }

/-! Theorems. -/

/-- Seeding step of the concrete crawl trace. -/
theorem wStep1 : CrawlStep wOracle [wSeed] wInit wMid :=
  CrawlStep.seed wInit wSeed (List.mem_singleton.mpr rfl) rfl

/-- Fetch step of the concrete crawl trace. -/
theorem wStep2 : CrawlStep wOracle [wSeed] wMid wFinal :=
  CrawlStep.fetch_ok wMid wSeed 0 [] { links := [], text := "" }
    rfl (by decide) (by decide) rfl

/-- The concrete two-step crawl trace. -/
theorem wTrace : CrawlReaches wOracle [wSeed] wInit wFinal :=
  CrawlReaches.tail wInit wMid wFinal
    (CrawlReaches.tail wInit wInit wMid (CrawlReaches.refl wInit) wStep1) wStep2

/-- C1: for every input record dictionary, `calculate_confidence` returns a
value between 0 and 1 inclusive, so every ProgramRecord produced by
extraction carries a confidence score in [0,1]. -/
theorem C1_confidence_in_unit_interval (pd : ProgramData) :
    0 ≤ calculate_confidence pd ∧ calculate_confidence pd ≤ 1 := by
  unfold calculate_confidence
  dsimp only
  split_ifs <;> norm_num [qmin]

/-- C2: the confidence score equals the capped weighted sum the spec
describes (0.2 name, 0.2 long description, 0.3 payment figure or raw
payment text, 0.2 eligibility text, 0.1 end date or deadline text), and a
record with all five components scores exactly 1.0. -/
theorem C2_confidence_formula (pd : ProgramData) :
    calculate_confidence pd = confidenceSpec pd ∧ calculate_confidence fullRecord = 1 := by
  constructor
  · unfold calculate_confidence confidenceSpec
    dsimp only
    split_ifs <;> norm_num
  · with_unfolding_all rfl

/-- C3 counterexample: on the page text `$4.00 to $9.50 per hundredweight
(cwt)` the only pattern match is `$4.00 to $9.50`, which does not contain
the substring `cwt`, so `extract_payment_info` yields the unit `flat_rate`
— not `cwt` as the claim states. -/
theorem C3_cwt_counterexample :
    (extract_payment_info "$4.00 to $9.50 per hundredweight (cwt)").payment_unit
        = some "flat_rate" ∧
    (extract_payment_info "$4.00 to $9.50 per hundredweight (cwt)").payment_unit
        ≠ some "cwt" := by
  have h : (extract_payment_info "$4.00 to $9.50 per hundredweight (cwt)").payment_unit
      = some "flat_rate" := rfl
  exact ⟨h, by rw [h]; decide⟩

/-- C3 amended: the numeric bounds are the minimum and maximum dollar
figures across all pattern matches (4.00 and 9.50 here) and the unit is
derived by keyword search over the matched substrings only; since the
single match `$4.00 to $9.50` contains no unit keyword, the unit defaults
to `flat_rate`. -/
theorem C3_payment_extraction_amended :
    (extract_payment_info "$4.00 to $9.50 per hundredweight (cwt)").payment_min = some 4 ∧
    (extract_payment_info "$4.00 to $9.50 per hundredweight (cwt)").payment_max = some (19/2) ∧
    (extract_payment_info "$4.00 to $9.50 per hundredweight (cwt)").payment_unit
        = some "flat_rate" ∧
    (extract_payment_info "$4.00 to $9.50 per hundredweight (cwt)").payment_info_raw
        = some "$4.00 to $9.50" := by
  refine ⟨rfl, by with_unfolding_all rfl, rfl, rfl⟩

/-- C6: extraction is deterministic and idempotent — for a fixed parsed
page, URL and date parser, the produced record does not depend on the
extractor instance's mutable state (its counter), and two runs produce
identical records. -/
theorem C6_extraction_deterministic (st1 st2 : ExtractorState)
    (parser : String → Except Unit Nat) (soup : Soup) (url : String) :
    extract_program_data st1 parser soup url = extract_program_data st2 parser soup url := rfl

/-- Head of a filtered list is the first element satisfying the predicate. -/
theorem filter_head?_eq_find? {α : Type} (p : α → Bool) (l : List α) :
    (l.filter p).head? = l.find? p := by
  induction l with
  | nil => rfl
  | cons a t ih =>
    cases hpa : p a with
    | true => simp [List.filter_cons, hpa, List.find?_cons_of_pos]
    | false => simp [List.filter_cons, hpa, List.find?_cons_of_neg, ih]

/-- The section loop of `extract_program_code` is a `findSome?` over the
sections of the first non-denylisted standalone token of each section. -/
theorem codeSearchSections_eq_findSome? (l : List String) :
    codeSearchSections l = l.findSome?
      (fun sec => (upperTokens (String.mk (sec.data.take 200))).find?
        (fun m => ¬ CODE_DENYLIST.contains m)) := by
  induction l with
  | nil => rfl
  | cons sec rest ih =>
    unfold codeSearchSections
    dsimp only
    rw [List.findSome?_cons, filter_head?_eq_find?]
    cases (upperTokens (String.mk (sec.data.take 200))).find?
        (fun m => ¬ CODE_DENYLIST.contains m) with
    | none => exact ih
    | some m => rfl

/-- C8 counterexample: on a text whose only acronym is the denylisted
parenthesized `(FSA)` and which does not even contain the word `program`,
`extract_program_code` still returns `FSA` — the denylist and the
near-`program` restriction apply only to the fallback branch, not to
parenthesized tokens. -/
theorem C8_denylist_counterexample :
    extract_program_code "The Farm Service Agency (FSA) helps farmers." = some "FSA" ∧
    "FSA" ∈ CODE_DENYLIST ∧
    strContains (lowerStr "The Farm Service Agency (FSA) helps farmers.") "program"
        = false := by
  refine ⟨rfl, by decide, rfl⟩

/-- C8 amended: the extracted code is the first parenthesized upper-case
token of 2 to 6 letters anywhere in the text, with no denylist applied;
only when no parenthesized token exists is the first standalone upper-case
token of the first 200 characters of the first two `program`-split
segments taken, excluding FSA, USDA, USA and PDF; null when neither
exists. -/
theorem C8_program_code_amended (text : String) :
    extract_program_code text = program_code_spec text := by
  unfold extract_program_code program_code_spec
  cases h : parenCodes text with
  | nil => simp [codeSearchSections_eq_findSome?]
  | cons c cs => simp

/-- C9: `extract_program_data` is a total function of its inputs — every
page yields a record (never an exception: the only fallible primitive,
date parsing, is guarded by the `try/except` modelled in `tryParseAll`) —
and fields that cannot be extracted degrade to null: the source URL is
always set, failed date parsing leaves both application dates null, and
absence of payment matches leaves all payment fields null. -/
theorem C9_total_graceful (st : ExtractorState) (parser : String → Except Unit Nat)
    (soup : Soup) (url : String) :
    (extract_program_data st parser soup url).source_url = url ∧
    (tryParseAll parser (deadlineMatches soup.text) = [] →
      (extract_program_data st parser soup url).application_end = none ∧
      (extract_program_data st parser soup url).application_start = none) ∧
    ((PAYMENT_PATTERNS.map (fun pat => re_findall pat soup.text)).flatten = [] →
      (extract_program_data st parser soup url).payment_min = none ∧
      (extract_program_data st parser soup url).payment_max = none ∧
      (extract_program_data st parser soup url).payment_unit = none) := by
  refine ⟨rfl, ?_, ?_⟩
  · intro h
    show (extract_deadlines parser soup.text).application_end = none ∧
      (extract_deadlines parser soup.text).application_start = none
    unfold extract_deadlines
    by_cases hd : (deadlineMatches soup.text).isEmpty
    · simp [hd]
    · simp only [hd, if_false, h]
      simp
  · intro h
    show (extract_payment_info soup.text).payment_min = none ∧
      (extract_payment_info soup.text).payment_max = none ∧
      (extract_payment_info soup.text).payment_unit = none
    unfold extract_payment_info
    simp [h]

/-- A Boolean that is not true is false. -/
theorem bool_eq_false {b : Bool} (h : ¬ b = true) : b = false := by
  cases b with
  | false => rfl
  | true => exact absurd rfl h

/-- `classify_link` never changes the visited set. -/
theorem classify_link_visited (st : CrawlState) (l : String) (d : Nat) :
    (classify_link st l d).visited_urls = st.visited_urls := by
  unfold classify_link
  dsimp only
  split_ifs <;> rfl

/-- `classify_link` never changes the fetch log. -/
theorem classify_link_fetched (st : CrawlState) (l : String) (d : Nat) :
    (classify_link st l d).fetched = st.fetched := by
  unfold classify_link
  dsimp only
  split_ifs <;> rfl

/-- `classify_link` never changes the configured maximum depth. -/
theorem classify_link_max_depth (st : CrawlState) (l : String) (d : Nat) :
    (classify_link st l d).max_depth = st.max_depth := by
  unfold classify_link
  dsimp only
  split_ifs <;> rfl

/-- A queue entry after `classify_link` is an old entry, or else its URL is
not a PDF link (only the non-PDF branch appends to the queue). -/
theorem classify_link_to_visit (st : CrawlState) (l : String) (d : Nat) (e : String × Nat)
    (he : e ∈ (classify_link st l d).to_visit) :
    e ∈ st.to_visit ∨ strContains (lowerStr e.1) ".pdf" = false := by
  unfold classify_link at he
  dsimp only at he
  split_ifs at he with h1 h2 h3
  all_goals try dsimp only at he
  all_goals try exact Or.inl he
  rcases List.mem_append.1 he with h | h
  · exact Or.inl h
  · have he2 : e = (l, d + 1) := List.mem_singleton.1 h
    subst he2
    right
    exact bool_eq_false h1

/-- Classifying a list of links never changes the visited set. -/
theorem foldl_classify_visited (d : Nat) (links : List String) (st : CrawlState) :
    (links.foldl (fun s l => classify_link s l d) st).visited_urls = st.visited_urls := by
  induction links generalizing st with
  | nil => rfl
  | cons a t ih => rw [List.foldl_cons, ih, classify_link_visited]

/-- Classifying a list of links never changes the fetch log. -/
theorem foldl_classify_fetched (d : Nat) (links : List String) (st : CrawlState) :
    (links.foldl (fun s l => classify_link s l d) st).fetched = st.fetched := by
  induction links generalizing st with
  | nil => rfl
  | cons a t ih => rw [List.foldl_cons, ih, classify_link_fetched]

/-- Classifying a list of links never changes the maximum depth. -/
theorem foldl_classify_max_depth (d : Nat) (links : List String) (st : CrawlState) :
    (links.foldl (fun s l => classify_link s l d) st).max_depth = st.max_depth := by
  induction links generalizing st with
  | nil => rfl
  | cons a t ih => rw [List.foldl_cons, ih, classify_link_max_depth]

/-- A queue entry after classifying a list of links is an old entry or a
non-PDF link. -/
theorem foldl_classify_to_visit (d : Nat) (links : List String) (st : CrawlState)
    (e : String × Nat) (he : e ∈ (links.foldl (fun s l => classify_link s l d) st).to_visit) :
    e ∈ st.to_visit ∨ strContains (lowerStr e.1) ".pdf" = false := by
  induction links generalizing st with
  | nil => exact Or.inl he
  | cons a t ih =>
    rw [List.foldl_cons] at he
    rcases ih _ he with h | h
    · exact classify_link_to_visit _ _ _ _ h
    · exact Or.inr h

/-- `crawl_page_ok` appends exactly the fetched URL to the visited set. -/
theorem crawl_page_ok_visited (st : CrawlState) (url : String) (depth : Nat) (pd : PageData) :
    (crawl_page_ok st url depth pd).visited_urls = st.visited_urls ++ [url] := by
  unfold crawl_page_ok
  dsimp only
  split_ifs <;> simp [foldl_classify_visited]

/-- `crawl_page_ok` appends exactly one entry to the fetch log. -/
theorem crawl_page_ok_fetched (st : CrawlState) (url : String) (depth : Nat) (pd : PageData) :
    (crawl_page_ok st url depth pd).fetched = st.fetched ++ [(url, depth)] := by
  unfold crawl_page_ok
  dsimp only
  split_ifs <;> simp [foldl_classify_fetched]

/-- `crawl_page_ok` preserves the maximum depth. -/
theorem crawl_page_ok_max_depth (st : CrawlState) (url : String) (depth : Nat) (pd : PageData) :
    (crawl_page_ok st url depth pd).max_depth = st.max_depth := by
  unfold crawl_page_ok
  dsimp only
  split_ifs <;> simp [foldl_classify_max_depth]

/-- A queue entry after `crawl_page_ok` is an old entry or a non-PDF link. -/
theorem crawl_page_ok_to_visit (st : CrawlState) (url : String) (depth : Nat) (pd : PageData)
    (e : String × Nat) (he : e ∈ (crawl_page_ok st url depth pd).to_visit) :
    e ∈ st.to_visit ∨ strContains (lowerStr e.1) ".pdf" = false := by
  unfold crawl_page_ok at he
  dsimp only at he
  split_ifs at he
  all_goals try dsimp only at he
  all_goals exact foldl_classify_to_visit depth pd.links { st with visited_urls := st.visited_urls ++ [url], fetched := st.fetched ++ [(url, depth)] } e he

/-- A crawl step never changes the configured maximum depth. -/
theorem crawlStep_max_depth {oracle : String → Option PageData} {seeds : List String}
    {s t : CrawlState} (h : CrawlStep oracle seeds s t) : t.max_depth = s.max_depth := by
  cases h with
  | seed _ _ _ => rfl
  | drop _ _ _ _ _ => rfl
  | fetch_ok url depth rest pd hq hvis hd ho => exact crawl_page_ok_max_depth _ _ _ _
  | fetch_fail _ _ _ _ _ _ _ => rfl

/-- The visited set only grows along a crawl step. -/
theorem crawlStep_visited_mono {oracle : String → Option PageData} {seeds : List String}
    {s t : CrawlState} (h : CrawlStep oracle seeds s t) {u : String}
    (hu : u ∈ s.visited_urls) : u ∈ t.visited_urls := by
  cases h with
  | seed _ _ _ => exact hu
  | drop _ _ _ _ _ => exact hu
  | fetch_ok url depth rest pd hq hvis hd ho =>
    rw [crawl_page_ok_visited]
    exact List.mem_append_left _ hu
  | fetch_fail url _ _ _ _ _ _ => exact List.mem_append_left _ hu

/-- A fetch-log entry after a crawl step is an old entry, or a fetch of a
URL that was unvisited and within the depth bound when fetched. -/
theorem crawlStep_fetched {oracle : String → Option PageData} {seeds : List String}
    {s t : CrawlState} (h : CrawlStep oracle seeds s t) (e : String × Nat)
    (he : e ∈ t.fetched) :
    e ∈ s.fetched ∨ (e.1 ∉ s.visited_urls ∧ e.2 ≤ s.max_depth) := by
  cases h with
  | seed _ _ _ => exact Or.inl he
  | drop _ _ _ _ _ => exact Or.inl he
  | fetch_ok url depth rest pd hq hvis hd ho =>
    rw [crawl_page_ok_fetched] at he
    rcases List.mem_append.1 he with h1 | h1
    · exact Or.inl h1
    · have he2 : e = (url, depth) := List.mem_singleton.1 h1
      subst he2
      exact Or.inr ⟨hvis, hd⟩
  | fetch_fail url depth rest hq hvis hd ho =>
    rcases List.mem_append.1 he with h1 | h1
    · exact Or.inl h1
    · have he2 : e = (url, depth) := List.mem_singleton.1 h1
      subst he2
      exact Or.inr ⟨hvis, hd⟩

/-- Crawl-trace invariant: the visited set grows, the maximum depth is
constant, and every fetch-log entry is either initial or a fetch of a URL
unvisited at the start and within the initial depth bound. -/
theorem crawlReaches_inv {oracle : String → Option PageData} {seeds : List String}
    {s s' : CrawlState} (h : CrawlReaches oracle seeds s s') :
    (∀ u, u ∈ s.visited_urls → u ∈ s'.visited_urls) ∧ s'.max_depth = s.max_depth ∧
    (∀ e : String × Nat, e ∈ s'.fetched →
      e ∈ s.fetched ∨ (e.1 ∉ s.visited_urls ∧ e.2 ≤ s.max_depth)) := by
  induction h with
  | refl => exact ⟨fun u hu => hu, rfl, fun e he => Or.inl he⟩
  | tail b c hab hbc ih =>
    obtain ⟨ihv, ihd, ihf⟩ := ih
    refine ⟨fun u hu => crawlStep_visited_mono hbc (ihv u hu),
      (crawlStep_max_depth hbc).trans ihd, ?_⟩
    intro e he
    rcases crawlStep_fetched hbc e he with h1 | h1
    · exact ihf e h1
    · refine Or.inr ⟨fun hmem => h1.1 (ihv e.1 hmem), ?_⟩
      calc e.2 ≤ b.max_depth := h1.2
        _ = s.max_depth := ihd

/-- C4: for a crawl started with resume enabled and a successful load of
the store's RawPage keys, the visited set is seeded with exactly those
keys, and no URL among them is ever fetched during that crawl — every
dequeued URL in the visited set is skipped without a fetch. -/
theorem C4_resume_never_refetches (oracle : String → Option PageData) (seeds : List String)
    (storeKeys : List String) (maxD : Nat) (s' : CrawlState)
    (h : CrawlReaches oracle seeds (resume_init storeKeys maxD) s')
    (u : String) (d : Nat) (hu : (u, d) ∈ s'.fetched) : u ∉ storeKeys := by
  rcases (crawlReaches_inv h).2.2 (u, d) hu with h1 | h1
  · exact absurd h1 (List.not_mem_nil (u, d))
  · exact h1.1

/-- C4 witness: the concrete resumed crawl fetches its fresh seed URL,
which is not among the pre-existing store keys. -/
theorem C4_resume_witness : ((wSeed, 0) ∈ wFinal.fetched) ∧ wSeed ∉ wKeys :=
  ⟨by decide, C4_resume_never_refetches wOracle [wSeed] wKeys 2 wFinal wTrace wSeed 0 (by decide)⟩

/-- C7: during a crawl no fetch ever happens at a depth above the
configured maximum — a dequeued entry that is already visited or exceeds
the maximum depth is dropped by a step that performs no fetch. -/
theorem C7_depth_bound (oracle : String → Option PageData) (seeds : List String)
    (storeKeys : List String) (maxD : Nat) (s' : CrawlState)
    (h : CrawlReaches oracle seeds (resume_init storeKeys maxD) s') :
    (∀ u d, (u, d) ∈ s'.fetched → d ≤ maxD) ∧
    (∀ url depth rest, s'.to_visit = (url, depth) :: rest →
      url ∈ s'.visited_urls ∨ s'.max_depth < depth →
      CrawlStep oracle seeds s' { s' with to_visit := rest }) := by
  constructor
  · intro u d hu
    rcases (crawlReaches_inv h).2.2 (u, d) hu with h1 | h1
    · exact absurd h1 (List.not_mem_nil (u, d))
    · exact h1.2
  · intro url depth rest hq hcond
    exact CrawlStep.drop s' url depth rest hq hcond

/-- C7 witness: the concrete crawl trace fetches its seed at depth 0,
within the configured maximum depth 2. -/
theorem C7_depth_witness : ((wSeed, 0) ∈ wFinal.fetched) ∧ (0 : Nat) ≤ 2 :=
  ⟨by decide, (C7_depth_bound wOracle [wSeed] wKeys 2 wFinal wTrace).1 wSeed 0 (by decide)⟩

/-- A crawl step from the default seeds preserves the invariant that no
queued URL contains `.pdf`. -/
theorem crawlStep_queue_nopdf {oracle : String → Option PageData} {s t : CrawlState}
    (h : CrawlStep oracle default_seeds s t)
    (hs : ∀ e : String × Nat, e ∈ s.to_visit → strContains (lowerStr e.1) ".pdf" = false) :
    ∀ e : String × Nat, e ∈ t.to_visit → strContains (lowerStr e.1) ".pdf" = false := by
  cases h with
  | seed u hu hq =>
    intro e he
    have he2 : e = (u, 0) := List.mem_singleton.1 he
    subst he2
    have hseeds : ∀ v ∈ default_seeds, strContains (lowerStr v) ".pdf" = false := by decide
    exact hseeds u hu
  | drop url depth rest hq hcond =>
    intro e he
    exact hs e (by rw [hq]; exact List.mem_cons_of_mem _ he)
  | fetch_ok url depth rest pd hq hvis hd ho =>
    intro e he
    rcases crawl_page_ok_to_visit _ _ _ _ e he with h1 | h1
    · exact hs e (by rw [hq]; exact List.mem_cons_of_mem _ h1)
    · exact h1
  | fetch_fail url depth rest hq hvis hd ho =>
    intro e he
    exact hs e (by rw [hq]; exact List.mem_cons_of_mem _ he)

/-- Along any crawl from the default seeds, the no-PDF queue invariant is
preserved. -/
theorem crawlReaches_queue_nopdf {oracle : String → Option PageData} {s s' : CrawlState}
    (h : CrawlReaches oracle default_seeds s s')
    (hs : ∀ e : String × Nat, e ∈ s.to_visit → strContains (lowerStr e.1) ".pdf" = false) :
    ∀ e : String × Nat, e ∈ s'.to_visit → strContains (lowerStr e.1) ".pdf" = false := by
  induction h with
  | refl => exact hs
  | tail b c hab hbc ih => exact crawlStep_queue_nopdf hbc ih

/-- C10: link classification gives PDFs precedence — a link containing
`.pdf` is added to the PDF set and never appended to the queue, even when
it also matches the domain/keyword allow-list — and consequently, in any
crawl from the program's seed URLs, the to-visit queue never contains a
URL containing `.pdf`. -/
theorem C10_pdf_precedence (st : CrawlState) (l : String) (d : Nat)
    (oracle : String → Option PageData) (storeKeys : List String) (maxD : Nat)
    (s' : CrawlState) :
    (strContains (lowerStr l) ".pdf" = true →
      (classify_link st l d).to_visit = st.to_visit ∧ l ∈ (classify_link st l d).pdf_urls) ∧
    (CrawlReaches oracle default_seeds (resume_init storeKeys maxD) s' →
      ∀ u dep, (u, dep) ∈ s'.to_visit → strContains (lowerStr u) ".pdf" = false) := by
  constructor
  · intro hpdf
    unfold classify_link
    dsimp only
    rw [if_pos hpdf]
    refine ⟨rfl, ?_⟩
    dsimp only
    split_ifs with hmem
    · exact hmem
    · exact List.mem_append_right _ (List.mem_singleton.mpr rfl)
  · intro htrace u dep hmem
    exact crawlReaches_queue_nopdf htrace
      (fun e he => absurd he (List.not_mem_nil e)) (u, dep) hmem

/-- C10 witness: a concrete PDF link that also matches the crawl
allow-list goes to the PDF set and leaves the queue unchanged. -/
theorem C10_pdf_witness :
    strContains (lowerStr "https://www.fsa.usda.gov/crp-program.pdf") ".pdf" = true ∧
    ((classify_link (resume_init [] 3) "https://www.fsa.usda.gov/crp-program.pdf" 1).to_visit
        = (resume_init [] 3).to_visit ∧
      "https://www.fsa.usda.gov/crp-program.pdf"
        ∈ (classify_link (resume_init [] 3) "https://www.fsa.usda.gov/crp-program.pdf" 1).pdf_urls) :=
  ⟨rfl, (C10_pdf_precedence (resume_init [] 3) "https://www.fsa.usda.gov/crp-program.pdf" 1
      wOracle [] 3 (resume_init [] 3)).1 rfl⟩

/-- The primary extractor on a PDF whose pages have no text and no tables
yields empty text and an empty table list. -/
theorem extract_with_pdfplumber_empty (pages : List PdfPage)
    (h : ∀ p ∈ pages, (p.text = none ∨ p.text = some "") ∧ p.tables = []) :
    (extract_with_pdfplumber pages).text = "" ∧ (extract_with_pdfplumber pages).tables = [] := by
  unfold extract_with_pdfplumber
  dsimp only
  constructor
  · refine Eq.trans (congrArg (String.intercalate "\n") (List.filterMap_eq_nil_iff.mpr ?_)) rfl
    intro ip hip
    have hmem : ip.2 ∈ pages := List.getElem?_mem (List.mem_enum_iff_getElem?.1 hip)
    obtain ⟨ht, _⟩ := h ip.2 hmem
    rcases ht with ht | ht <;> rw [ht]
    rfl
  · refine List.flatten_eq_nil_iff.mpr ?_
    intro lst hlst
    rcases List.mem_map.1 hlst with ⟨ip, hip, rfl⟩
    have hmem : ip.2 ∈ pages := List.getElem?_mem (List.mem_enum_iff_getElem?.1 hip)
    rw [(h ip.2 hmem).2]
    rfl

/-- The success flag of the primary extraction is exactly the test that
the joined text is non-empty. -/
theorem extract_with_pdfplumber_success (pages : List PdfPage) :
    (extract_with_pdfplumber pages).success
      = decide ((extract_with_pdfplumber pages).text ≠ "") := rfl

/-- C5: `success` is true only when the primary (pdfplumber) path produced
non-empty text; a result produced through the camelot table-only fallback
has success false and extraction method `camelot`; and a PDF with zero
extractable text and zero tables yields success false with an empty table
list. -/
theorem C5_pdf_success_flag (pp : Except Unit (List PdfPage)) (cam : Option (List PdfTable))
    (pages : List PdfPage) :
    ((process_pdf pp cam).success = true →
      ∃ ps, pp = Except.ok ps ∧ (extract_with_pdfplumber ps).text ≠ "") ∧
    ((process_pdf pp cam).extraction_method = some "camelot" →
      (process_pdf pp cam).success = false) ∧
    (pp = Except.ok pages →
      (∀ p ∈ pages, (p.text = none ∨ p.text = some "") ∧ p.tables = []) →
      cam = some [] ∨ cam = none →
      (process_pdf pp cam).success = false ∧ (process_pdf pp cam).tables = []) := by
  refine ⟨?_, ?_, ?_⟩
  · intro hsucc
    unfold process_pdf at hsucc
    cases pp with
    | error e =>
      dsimp only at hsucc
      rw [if_neg (by decide : ¬ pdfResultInit.success = true)] at hsucc
      cases cam with
      | some ts => exact Bool.noConfusion hsucc
      | none => exact Bool.noConfusion hsucc
    | ok ps =>
      dsimp only at hsucc
      by_cases hs : (extract_with_pdfplumber ps).success = true
      · refine ⟨ps, rfl, ?_⟩
        rw [extract_with_pdfplumber_success] at hs
        exact of_decide_eq_true hs
      · rw [if_neg hs] at hsucc
        cases cam with
        | some ts => exact absurd hsucc hs
        | none => exact absurd hsucc hs
  · intro hmeth
    unfold process_pdf at hmeth ⊢
    cases pp with
    | error e =>
      dsimp only at hmeth ⊢
      rw [if_neg (by decide : ¬ pdfResultInit.success = true)] at hmeth ⊢
      cases cam with
      | some ts => rfl
      | none => exact Option.noConfusion hmeth
    | ok ps =>
      dsimp only at hmeth ⊢
      by_cases hs : (extract_with_pdfplumber ps).success = true
      · rw [if_pos hs] at hmeth
        have hp : (extract_with_pdfplumber ps).extraction_method = some "pdfplumber" := rfl
        rw [hp] at hmeth
        exact absurd hmeth (by decide)
      · rw [if_neg hs]
        cases cam with
        | some ts => exact bool_eq_false hs
        | none => exact bool_eq_false hs
  · intro hok hempty hcam
    subst hok
    obtain ⟨htext, _htab⟩ := extract_with_pdfplumber_empty pages hempty
    have hs : ¬ (extract_with_pdfplumber pages).success = true := by
      rw [extract_with_pdfplumber_success, htext]
      decide
    unfold process_pdf
    dsimp only
    rw [if_neg hs]
    rcases hcam with hc | hc <;> subst hc
    · exact ⟨bool_eq_false hs, rfl⟩
    · exact ⟨bool_eq_false hs, _htab⟩

/-- C5 witness: a one-page PDF with no text and no tables, with the
fallback also finding nothing, produces success false and no tables. -/
theorem C5_pdf_witness :
    (process_pdf (Except.ok [pageEmpty]) (some [])).success = false ∧
    (process_pdf (Except.ok [pageEmpty]) (some [])).tables = [] :=
  (C5_pdf_success_flag (Except.ok [pageEmpty]) (some []) [pageEmpty]).2.2
    rfl (by decide) (Or.inl rfl)

/-- C9 witness: on a page whose only deadline-like text is one the parser
rejects, extraction still produces a record with a null end date. -/
theorem C9_total_graceful_witness :
    tryParseAll failParser (deadlineMatches soup0.text) = [] ∧
    (extract_program_data { extracted_count := 0 } failParser soup0
        "https://example.test/p").application_end = none :=
  ⟨rfl,
    ((C9_total_graceful { extracted_count := 0 } failParser soup0
      "https://example.test/p").2.1 rfl).1⟩

end FarmScraper
